import Mathlib

/-!
Shallow embedding of the tic-tac-toe engine in `src/tiktaktoe.py` (class
`TikTakToe` together with the parts of class `Player` that the engine uses),
and proofs about the board/turn state machine and the state encoders.

Conventions of the embedding:
* Python ints are modelled as `Int`; list indices and lengths as `Nat`.
* A Python method that can `raise` is modelled as a function into
  `Except GameError …`; every `raise` in the source happens before any
  mutation of the object, so an error result leaves the state unchanged.
* The source raises bare `Exception` (or `ValueError`) with distinct
  messages; each distinct raise site is one constructor of `GameError`.
* `self.result` holds one of the strings "x_win", "o_win", "draw", "error"
  (or `None`); the strings are modelled by the inductive `GameResult`.
-/

/-- The `PlayerNr` enum of the source: `X = 1`, `O = -1`. -/
inductive PlayerNr
  | X
  | O
  deriving DecidableEq

/-- The `.value` of an enum member: `PlayerNr.X.value = 1`, `PlayerNr.O.value = -1`. -/
def PlayerNr.value : PlayerNr → Int
  | PlayerNr.X => 1
  | PlayerNr.O => -1

/-- Class `Player`: `fields_taken` starts empty and `player_nr` starts as
`None`; `TikTakToe.__init__` sets `player_nr` to `X` resp. `O`. -/
structure Player where
  fields_taken : List Int
  player_nr : Option PlayerNr
  deriving DecidableEq

/-- The strings the source stores in `self.result`:
"x_win", "o_win", "draw", "error". -/
inductive GameResult
  | x_win
  | o_win
  | draw
  | error
  deriving DecidableEq

/-- One constructor per distinct raise site of the source:
* `outOfRange`: `Player.take_field`, message "Only fields 0 to 8 exist."
* `wrongTurn`: `occupy_field`, "It is not this players turn yet. …"
* `cellOccupied`: `occupy_field`, "You are trying to take an occupied field!"
* `alreadyTakenFields`: `TikTakToe.__init__`, "A given player already has taken fields. …"
* `invalidLength`: `get_nn_input`, `ValueError` "Input string must have exactly 9 characters."
-/
inductive GameError
  | outOfRange
  | wrongTurn
  | cellOccupied
  | alreadyTakenFields
  | invalidLength
  deriving DecidableEq

/-- Class `TikTakToe`. The field `game_log` of the source (a list only ever
appended to by the `QPlayer` move logger, never read by the engine) is
omitted; `__init__` and `reset` set it to the empty list. -/
structure TikTakToe where
  player_x : Player
  player_o : Player
  player_turn : PlayerNr
  is_ongoing : Bool
  result : Option GameResult
  deriving DecidableEq

/-- The player object the source call sites pass to `occupy_field` for a
given `player_nr`: after `__init__`, `player_x.player_nr = X` and
`player_o.player_nr = O`, so `self = g.actingPlayer self.player_nr`. -/
def TikTakToe.actingPlayer (g : TikTakToe) : PlayerNr → Player
  | PlayerNr.X => g.player_x
  | PlayerNr.O => g.player_o

/-- Write back the (mutated) acting player object. -/
def TikTakToe.withActing (g : TikTakToe) : PlayerNr → Player → TikTakToe
  | PlayerNr.X, pl => { g with player_x := pl }
  | PlayerNr.O, pl => { g with player_o := pl }

/-- `TikTakToe.__init__(starting_player_x, second_player_o)`.  Raises when a
passed player already has taken fields; otherwise binds the first player to
`X`, the second to `O`, sets the turn to `X`, `is_ongoing = True` and
`result = None`. -/
def TikTakToe.init (starting_player_x second_player_o : Player) :
    Except GameError TikTakToe :=
  if 0 < starting_player_x.fields_taken.length ∨
      0 < second_player_o.fields_taken.length then
    Except.error GameError.alreadyTakenFields
  else
    Except.ok
      { player_x := { starting_player_x with player_nr := some PlayerNr.X }
        player_o := { second_player_o with player_nr := some PlayerNr.O }
        player_turn := PlayerNr.X
        is_ongoing := true
        result := none }

/-- `TikTakToe.reset`.  Note that the source clears the taken fields, the
turn, `is_ongoing` and `game_log`, but does NOT clear `self.result`. -/
def TikTakToe.reset (g : TikTakToe) : TikTakToe :=
  { g with
    player_x := { g.player_x with fields_taken := [] }
    player_o := { g.player_o with fields_taken := [] }
    player_turn := PlayerNr.X
    is_ongoing := true }

/-- The effective position of a CPython list index: a negative index counts
from the end of the list. -/
def pyIndex (m : List Int) (i : Int) : Int :=
  if i < 0 then i + m.length else i

/-- CPython list item assignment `m[i] = v` for an `Int` index.  An index
outside `[-len, len)` raises `IndexError`; no field ever stored by the
engine is outside `[0, 9)` (every entry point checks `field in range(0, 9)`),
and every theorem below that involves the game matrix carries that bound as
a hypothesis, so the `IndexError` branch is modelled as a no-op. -/
def pySet (m : List Int) (i v : Int) : List Int :=
  if 0 ≤ pyIndex m i ∧ pyIndex m i < m.length then m.set (pyIndex m i).toNat v
  else m

/-- `TikTakToe.get_game_matrix`: a fresh list of nine zeros, then `1` at
player X's taken fields, then `-1` at player O's taken fields. -/
def TikTakToe.get_game_matrix (g : TikTakToe) : List Int :=
  let game_matrix : List Int := List.replicate (3 * 3) 0
  let game_matrix :=
    g.player_x.fields_taken.foldl (fun gm field => pySet gm field 1) game_matrix
  g.player_o.fields_taken.foldl (fun gm field => pySet gm field (-1)) game_matrix

/-- The characters the loop body of `get_qtable_entry` appends for one matrix
entry: `'-'` if the entry is `0`, then `'x'` if it equals `pov.value`, else
`'o'` if it is neither `0` nor `pov.value` (the source runs an
`if` followed by an independent `if/elif`). -/
def qtableChar (pov : PlayerNr) (field : Int) : List Char :=
  (if field = 0 then ['-'] else []) ++
    (if field = pov.value then ['x']
     else if field ≠ 0 ∧ field ≠ pov.value then ['o'] else [])

/-- `TikTakToe.get_qtable_entry(pov)`: the string obtained by appending the
characters of `qtableChar` for every entry of the game matrix in order. -/
def TikTakToe.get_qtable_entry (g : TikTakToe) (pov : PlayerNr) : String :=
  String.mk (g.get_game_matrix.map (qtableChar pov)).flatten

/-- The `mapping` dict of `get_nn_input`.  Any character other than
`'x'`, `'-'`, `'o'` would raise `KeyError` in the source; `get_qtable_entry`
provably never produces such a character, and the branch is modelled as `[]`. -/
def nnMap (c : Char) : List Int :=
  if c = 'x' then [1, 0, 0]
  else if c = '-' then [0, 1, 0]
  else if c = 'o' then [0, 0, 1]
  else []

/-- `TikTakToe.get_nn_input(pov)`: build the perspective string, raise
`ValueError` unless it has exactly 9 characters, then one-hot encode each
character.  The resulting `(9, 3)` tensor is modelled as a list of 9 rows
of 3 integers (the float32 entries are exactly 0.0 and 1.0). -/
def TikTakToe.get_nn_input (g : TikTakToe) (pov : PlayerNr) :
    Except GameError (List (List Int)) :=
  let input_string := g.get_qtable_entry pov
  if input_string.length ≠ 9 then Except.error GameError.invalidLength
  else Except.ok (input_string.data.map nnMap)

/-- `TikTakToe.is_occupied(field)`. -/
def TikTakToe.is_occupied (g : TikTakToe) (field : Int) : Bool :=
  decide (field ∈ g.player_o.fields_taken) ||
    decide (field ∈ g.player_x.fields_taken)

/-- The `win_states` constant of `check_for_win`: 3 rows, 3 columns,
2 diagonals. -/
def win_states : List (List Int) :=
  [[0, 1, 2], [3, 4, 5], [6, 7, 8],
   [0, 3, 6], [1, 4, 7], [2, 5, 8],
   [0, 4, 8], [2, 4, 6]]

/-- `TikTakToe.check_for_win(player)`: some win state has all three of its
cells in `player.fields_taken`. -/
def check_for_win (player : Player) : Bool :=
  win_states.any fun win_state =>
    decide (win_state.getD 0 0 ∈ player.fields_taken) &&
      decide (win_state.getD 1 0 ∈ player.fields_taken) &&
      decide (win_state.getD 2 0 ∈ player.fields_taken)

/-- `TikTakToe.check_for_draw`: compares only the total number of taken
fields against 9. -/
def TikTakToe.check_for_draw (g : TikTakToe) : Bool :=
  decide (9 ≤ g.player_x.fields_taken.length + g.player_o.fields_taken.length)

/-- The acting player object after `player.fields_taken.append(field)`:
the value of the local `player` (alias of `self.player_x`/`self.player_o`)
at the end of `occupy_field`. -/
def movedPlayer (g : TikTakToe) (player_nr : PlayerNr) (field : Int) : Player :=
  { g.actingPlayer player_nr with
    fields_taken := (g.actingPlayer player_nr).fields_taken ++ [field] }

/-- The mutation segment of `occupy_field` (everything after the two guard
checks, which cannot raise): flip the turn, append the field, check for a
win (attributing the result via `player.player_nr`), else check for a draw. -/
def occupy_success (g : TikTakToe) (player_nr : PlayerNr) (field : Int) :
    TikTakToe :=
  let player' := movedPlayer g player_nr field
  let g1 := { g.withActing player_nr player' with
    player_turn := if g.player_turn = PlayerNr.X then PlayerNr.O else PlayerNr.X }
  if check_for_win player' then
    if player'.player_nr = some PlayerNr.X then
      { g1 with result := some GameResult.x_win, is_ongoing := false }
    else if player'.player_nr = some PlayerNr.O then
      { g1 with result := some GameResult.o_win, is_ongoing := false }
    else
      { g1 with result := some GameResult.error, is_ongoing := false }
  else if g1.check_for_draw then
    { g1 with result := some GameResult.draw, is_ongoing := false }
  else g1

/-- `TikTakToe.occupy_field(player, player_nr, field)`.  The source receives
the acting player object and its number separately; every call site passes
`(self, self.player_nr, field)` where `self` is the game's player bound to
that number by `__init__`, so the embedding selects the object from the
number (`actingPlayer`).  Order of the source: turn check, occupancy check,
then the mutation segment `occupy_success`. -/
def TikTakToe.occupy_field (g : TikTakToe) (player_nr : PlayerNr) (field : Int) :
    Except GameError TikTakToe :=
  if player_nr ≠ g.player_turn then
    Except.error GameError.wrongTurn
  else if field ∈ g.player_o.fields_taken ∨ field ∈ g.player_x.fields_taken then
    Except.error GameError.cellOccupied
  else
    Except.ok (occupy_success g player_nr field)

/-- `Player.take_field(game, field)` for a player bound into the game: the
spec's `occupy(cell, actingPlayer)` operation.  The source first checks
`field in range(0, 9)` (raising "Only fields 0 to 8 exist." otherwise) and
then calls `game.occupy_field(self, self.player_nr, field)`. -/
def TikTakToe.take_field (g : TikTakToe) (player_nr : PlayerNr) (field : Int) :
    Except GameError TikTakToe :=
  if 0 ≤ field ∧ field < 9 then g.occupy_field player_nr field
  else Except.error GameError.outOfRange

/-- One attempted move seen from the caller: a raised exception propagates
and leaves the game object unchanged (every raise in the source happens
before any mutation). -/
def TikTakToe.step (g : TikTakToe) (player_nr : PlayerNr) (field : Int) : TikTakToe :=
  match g.take_field player_nr field with
  | Except.ok g' => g'
  | Except.error _ => g

/-- A whole sequence of attempted moves. -/
def TikTakToe.exec : TikTakToe → List (PlayerNr × Int) → TikTakToe
  | g, [] => g
  | g, (p, f) :: ms => (g.step p f).exec ms

/-- The result value written on a win for the acting player:
`x_win` for player X (player A), `o_win` for player O (player B). -/
def PlayerNr.winResult : PlayerNr → GameResult
  | PlayerNr.X => GameResult.x_win
  | PlayerNr.O => GameResult.o_win

/-- Modelled from the spec (§3 Data model): the four-valued abstract
**Result** `{ongoing, playerA_win, playerB_win, draw}` that the spec lays
over the source's pair `(is_ongoing, result)`.  The game is `ongoing`
exactly while `is_ongoing` holds; otherwise the stored string decides
(`x_win` ↦ player A wins, `o_win` ↦ player B wins). -/
inductive SpecResult
  | ongoing
  | playerA_win
  | playerB_win
  | draw
  | error
  deriving DecidableEq

/-- The abstraction function from a source game state to the spec's Result. -/
def specResult (g : TikTakToe) : SpecResult :=
  if g.is_ongoing then SpecResult.ongoing
  else
    match g.result with
    | some GameResult.x_win => SpecResult.playerA_win
    | some GameResult.o_win => SpecResult.playerB_win
    | some GameResult.draw => SpecResult.draw
    | _ => SpecResult.error

/-- The invariant every reachable game state satisfies: `__init__` binds the
player numbers and clears the field lists, and `take_field` only ever
appends a fresh, range-checked field to the list of the player whose turn it
is (`reset` clears the lists again).  It is established by `tiktak_init_inv`
and preserved by `tiktak_step_inv` and `tiktak_reset_inv` below. -/
def GameInv (g : TikTakToe) : Prop :=
  g.player_x.player_nr = some PlayerNr.X ∧
  g.player_o.player_nr = some PlayerNr.O ∧
  g.player_x.fields_taken.Nodup ∧
  g.player_o.fields_taken.Nodup ∧
  (∀ a ∈ g.player_x.fields_taken, a ∉ g.player_o.fields_taken) ∧
  (∀ a ∈ g.player_x.fields_taken, 0 ≤ a ∧ a < 9) ∧
  (∀ a ∈ g.player_o.fields_taken, 0 ≤ a ∧ a < 9)

instance (g : TikTakToe) : Decidable (GameInv g) := by
  unfold GameInv
  infer_instance

/-- A fresh `Player()` object. -/
def freshPlayer : Player :=
  { fields_taken := [], player_nr := none }

/-- The game `TikTakToe(Player(), Player())` constructs. -/
def g0 : TikTakToe :=
  { player_x := { fields_taken := [], player_nr := some PlayerNr.X }
    player_o := { fields_taken := [], player_nr := some PlayerNr.O }
    player_turn := PlayerNr.X
    is_ongoing := true
    result := none }

/-- The state after player X takes field 0 in the fresh game. -/
def gAfter0 : TikTakToe :=
  { player_x := { fields_taken := [0], player_nr := some PlayerNr.X }
    player_o := { fields_taken := [], player_nr := some PlayerNr.O }
    player_turn := PlayerNr.O
    is_ongoing := true
    result := none }

/-- A reachable terminal state: X took 0, 1, 2 (the top row) while O took
3 and 4, so X has won and the turn was flipped to O. -/
def gTerm : TikTakToe :=
  { player_x := { fields_taken := [0, 1, 2], player_nr := some PlayerNr.X }
    player_o := { fields_taken := [3, 4], player_nr := some PlayerNr.O }
    player_turn := PlayerNr.O
    is_ongoing := false
    result := some GameResult.x_win }

/-! ### Supporting lemmas about `pySet` and the game matrix -/

theorem pyIndex_of_nonneg (m : List Int) (i : Int) (h : 0 ≤ i) :
    pyIndex m i = i :=
  if_neg (not_lt.mpr h)

theorem pySet_inrange (m : List Int) (i v : Int) (h0 : 0 ≤ i)
    (hlt : i < (m.length : Int)) :
    pySet m i v = m.set i.toNat v := by
  unfold pySet
  rw [pyIndex_of_nonneg m i h0]
  exact if_pos ⟨h0, hlt⟩

theorem pySet_length (m : List Int) (i v : Int) :
    (pySet m i v).length = m.length := by
  unfold pySet
  split
  · exact List.length_set ..
  · rfl

theorem foldl_pySet_length (v : Int) (l : List Int) (m : List Int) :
    (l.foldl (fun gm field => pySet gm field v) m).length = m.length := by
  induction l generalizing m with
  | nil => rfl
  | cons a l ih => rw [List.foldl_cons, ih, pySet_length]

theorem pySet_getElem?_keep (m : List Int) (i v : Int) (k : Nat)
    (h : m[k]? = some v) : (pySet m i v)[k]? = some v := by
  unfold pySet
  split
  · rename_i hcond
    by_cases hk : (pyIndex m i).toNat = k
    · subst hk
      exact List.getElem?_set_eq_of_lt v ((Int.toNat_lt hcond.1).mpr hcond.2)
    · rw [List.getElem?_set_ne hk]
      exact h
  · exact h

theorem foldl_pySet_keep (v : Int) (l : List Int) (k : Nat) (m : List Int)
    (h : m[k]? = some v) :
    (l.foldl (fun gm field => pySet gm field v) m)[k]? = some v := by
  induction l generalizing m with
  | nil => exact h
  | cons a l ih => exact ih (pySet m a v) (pySet_getElem?_keep m a v k h)

theorem pySet_getElem?_or (m : List Int) (i v : Int) (k : Nat) :
    (pySet m i v)[k]? = m[k]? ∨ (pySet m i v)[k]? = some v := by
  unfold pySet
  split
  · rename_i hcond
    by_cases hk : (pyIndex m i).toNat = k
    · right
      subst hk
      exact List.getElem?_set_eq_of_lt v ((Int.toNat_lt hcond.1).mpr hcond.2)
    · left
      exact List.getElem?_set_ne hk
  · left
    rfl

theorem foldl_pySet_or (v : Int) (l : List Int) (k : Nat) (m : List Int) :
    (l.foldl (fun gm field => pySet gm field v) m)[k]? = m[k]? ∨
      (l.foldl (fun gm field => pySet gm field v) m)[k]? = some v := by
  induction l generalizing m with
  | nil => left; rfl
  | cons a l ih =>
    rw [List.foldl_cons]
    rcases ih (pySet m a v) with h | h
    · rcases pySet_getElem?_or m a v k with h2 | h2
      · left
        rw [h, h2]
      · right
        rw [h, h2]
    · right
      exact h

theorem foldl_pySet_write (v : Int) (l : List Int) (f : Int)
    (hf : f ∈ l) (h0 : 0 ≤ f) (h9 : f < 9) (m : List Int) (hm : m.length = 9) :
    (l.foldl (fun gm field => pySet gm field v) m)[f.toNat]? = some v := by
  induction l generalizing m with
  | nil => cases hf
  | cons a l ih =>
    rw [List.foldl_cons]
    rcases List.mem_cons.mp hf with rfl | hmem
    · apply foldl_pySet_keep
      rw [pySet_inrange m f v h0 (by rw [hm]; exact_mod_cast h9)]
      exact List.getElem?_set_eq_of_lt v
        (by rw [hm]; exact (Int.toNat_lt h0).mpr (by exact_mod_cast h9))
    · exact ih hmem (pySet m a v) (by rw [pySet_length, hm])

theorem foldl_pySet_untouched (v : Int) (l : List Int) (i : Int)
    (h0 : 0 ≤ i) (h9 : i < 9)
    (hl : ∀ a ∈ l, 0 ≤ a ∧ a < 9) (hni : i ∉ l) (m : List Int)
    (hm : m.length = 9) :
    (l.foldl (fun gm field => pySet gm field v) m)[i.toNat]? = m[i.toNat]? := by
  induction l generalizing m with
  | nil => rfl
  | cons a l ih =>
    rw [List.foldl_cons]
    have ha := hl a (List.mem_cons_self a l)
    have hsplit : i ≠ a ∧ i ∉ l := by
      simpa [List.mem_cons, not_or] using hni
    rw [ih (fun b hb => hl b (List.mem_cons_of_mem a hb)) hsplit.2 (pySet m a v)
      (by rw [pySet_length, hm])]
    rw [pySet_inrange m a v ha.1 (by rw [hm]; exact_mod_cast ha.2)]
    have hne : a.toNat ≠ i.toNat := fun h =>
      hsplit.1 (by rw [← Int.toNat_of_nonneg h0, ← Int.toNat_of_nonneg ha.1, h])
    exact List.getElem?_set_ne hne

theorem pySet_mem (m : List Int) (i v e : Int) (he : e ∈ pySet m i v) :
    e ∈ m ∨ e = v := by
  unfold pySet at he
  split at he
  · exact List.mem_or_eq_of_mem_set he
  · exact Or.inl he

theorem foldl_pySet_mem (v : Int) (l : List Int) (P : Int → Prop)
    (hv : P v) (m : List Int) (hm : ∀ e ∈ m, P e) :
    ∀ e ∈ l.foldl (fun gm field => pySet gm field v) m, P e := by
  induction l generalizing m with
  | nil => exact hm
  | cons a l ih =>
    rw [List.foldl_cons]
    refine ih (pySet m a v) ?_
    intro e he
    rcases pySet_mem m a v e he with h | rfl
    · exact hm e h
    · exact hv

theorem get_game_matrix_length (g : TikTakToe) :
    g.get_game_matrix.length = 9 := by
  simp only [TikTakToe.get_game_matrix]
  rw [foldl_pySet_length, foldl_pySet_length, List.length_replicate]

theorem get_game_matrix_entries (g : TikTakToe) :
    ∀ e ∈ g.get_game_matrix, e = 0 ∨ e = 1 ∨ e = -1 := by
  simp only [TikTakToe.get_game_matrix]
  refine foldl_pySet_mem (-1) _ _ (by right; right; rfl) _ ?_
  refine foldl_pySet_mem 1 _ _ (by right; left; rfl) _ ?_
  intro e he
  left
  exact List.eq_of_mem_replicate he

theorem get_game_matrix_of_mem_x (g : TikTakToe) (f : Int)
    (hf : f ∈ g.player_x.fields_taken) (h0 : 0 ≤ f) (h9 : f < 9)
    (ho : ∀ a ∈ g.player_o.fields_taken, 0 ≤ a ∧ a < 9)
    (hfo : f ∉ g.player_o.fields_taken) :
    g.get_game_matrix[f.toNat]? = some 1 := by
  simp only [TikTakToe.get_game_matrix]
  rw [foldl_pySet_untouched (-1) _ f h0 h9 ho hfo _
    (by rw [foldl_pySet_length, List.length_replicate])]
  exact foldl_pySet_write 1 _ f hf h0 h9 _ (by rw [List.length_replicate])

theorem get_game_matrix_of_mem_x_or (g : TikTakToe) (f : Int)
    (hf : f ∈ g.player_x.fields_taken) (h0 : 0 ≤ f) (h9 : f < 9) :
    g.get_game_matrix[f.toNat]? = some 1 ∨
      g.get_game_matrix[f.toNat]? = some (-1) := by
  simp only [TikTakToe.get_game_matrix]
  rcases foldl_pySet_or (-1) g.player_o.fields_taken f.toNat _ with h | h
  · left
    rw [h]
    exact foldl_pySet_write 1 _ f hf h0 h9 _ (by rw [List.length_replicate])
  · right
    exact h

theorem get_game_matrix_of_mem_o (g : TikTakToe) (f : Int)
    (hf : f ∈ g.player_o.fields_taken) (h0 : 0 ≤ f) (h9 : f < 9) :
    g.get_game_matrix[f.toNat]? = some (-1) := by
  simp only [TikTakToe.get_game_matrix]
  exact foldl_pySet_write (-1) _ f hf h0 h9 _
    (by rw [foldl_pySet_length, List.length_replicate])

theorem get_game_matrix_of_not_mem (g : TikTakToe) (f : Int)
    (h0 : 0 ≤ f) (h9 : f < 9)
    (hx : ∀ a ∈ g.player_x.fields_taken, 0 ≤ a ∧ a < 9)
    (hfx : f ∉ g.player_x.fields_taken)
    (ho : ∀ a ∈ g.player_o.fields_taken, 0 ≤ a ∧ a < 9)
    (hfo : f ∉ g.player_o.fields_taken) :
    g.get_game_matrix[f.toNat]? = some 0 := by
  simp only [TikTakToe.get_game_matrix]
  rw [foldl_pySet_untouched (-1) _ f h0 h9 ho hfo _
    (by rw [foldl_pySet_length, List.length_replicate])]
  rw [foldl_pySet_untouched 1 _ f h0 h9 hx hfx _ (by rw [List.length_replicate])]
  rw [List.getElem?_replicate]
  rw [if_pos ((Int.toNat_lt h0).mpr (by exact_mod_cast h9))]

/-! ### Counting taken fields versus a full board -/

theorem mem_of_nine_le (xs os : List Int) (hnx : xs.Nodup) (hno : os.Nodup)
    (hd : ∀ a ∈ xs, a ∉ os)
    (hrx : ∀ a ∈ xs, 0 ≤ a ∧ a < 9) (hro : ∀ a ∈ os, 0 ≤ a ∧ a < 9)
    (hc : 9 ≤ xs.length + os.length) :
    ∀ i : Int, 0 ≤ i → i < 9 → i ∈ xs ∨ i ∈ os := by
  intro i h0 h9
  have hdisj : Disjoint xs.toFinset os.toFinset := by
    rw [Finset.disjoint_left]
    intro a ha hb
    exact hd a (List.mem_toFinset.mp ha) (List.mem_toFinset.mp hb)
  have hsub : xs.toFinset ∪ os.toFinset ⊆ Finset.Icc (0 : Int) 8 := by
    intro a ha
    rcases Finset.mem_union.mp ha with h | h
    · have := hrx a (List.mem_toFinset.mp h)
      exact Finset.mem_Icc.mpr ⟨this.1, by omega⟩
    · have := hro a (List.mem_toFinset.mp h)
      exact Finset.mem_Icc.mpr ⟨this.1, by omega⟩
  have hcard : (Finset.Icc (0 : Int) 8).card ≤ (xs.toFinset ∪ os.toFinset).card := by
    rw [Finset.card_union_of_disjoint hdisj, List.toFinset_card_of_nodup hnx,
      List.toFinset_card_of_nodup hno, Int.card_Icc]
    omega
  have heq := Finset.eq_of_subset_of_card_le hsub hcard
  have hmem : i ∈ xs.toFinset ∪ os.toFinset := by
    rw [heq]
    exact Finset.mem_Icc.mpr ⟨h0, by omega⟩
  rcases Finset.mem_union.mp hmem with h | h
  · exact Or.inl (List.mem_toFinset.mp h)
  · exact Or.inr (List.mem_toFinset.mp h)

theorem nine_le_of_all (xs os : List Int)
    (h : ∀ i : Int, 0 ≤ i → i < 9 → i ∈ xs ∨ i ∈ os) :
    9 ≤ xs.length + os.length := by
  have hsub : Finset.Icc (0 : Int) 8 ⊆ xs.toFinset ∪ os.toFinset := by
    intro a ha
    have hm := Finset.mem_Icc.mp ha
    rcases h a hm.1 (by omega) with hx | ho
    · exact Finset.mem_union.mpr (Or.inl (List.mem_toFinset.mpr hx))
    · exact Finset.mem_union.mpr (Or.inr (List.mem_toFinset.mpr ho))
  have h1 : (Finset.Icc (0 : Int) 8).card ≤ (xs.toFinset ∪ os.toFinset).card :=
    Finset.card_le_card hsub
  have h2 : (xs.toFinset ∪ os.toFinset).card ≤ xs.toFinset.card + os.toFinset.card :=
    Finset.card_union_le _ _
  have h3 := List.toFinset_card_le xs
  have h4 := List.toFinset_card_le os
  rw [Int.card_Icc] at h1
  omega

/-! ### The perspective string, character by character -/

/-- The single character the `get_qtable_entry` loop appends for a matrix
entry in `{0, 1, -1}` (the only values a game matrix contains). -/
def povChar (pov : PlayerNr) (e : Int) : Char :=
  if e = 0 then '-' else if e = pov.value then 'x' else 'o'

theorem qtableChar_eq_povChar (pov : PlayerNr) (e : Int)
    (he : e = 0 ∨ e = 1 ∨ e = -1) :
    qtableChar pov e = [povChar pov e] := by
  rcases he with rfl | rfl | rfl <;> cases pov <;> decide

theorem flatten_map_qtableChar (pov : PlayerNr) (m : List Int)
    (hm : ∀ e ∈ m, e = 0 ∨ e = 1 ∨ e = -1) :
    (m.map (qtableChar pov)).flatten = m.map (povChar pov) := by
  induction m with
  | nil => rfl
  | cons a l ih =>
    rw [List.map_cons, List.flatten_cons,
      qtableChar_eq_povChar pov a (hm a (List.mem_cons_self a l)),
      ih (fun e he => hm e (List.mem_cons_of_mem a he)), List.map_cons]
    rfl

theorem get_qtable_entry_data (g : TikTakToe) (pov : PlayerNr) :
    (g.get_qtable_entry pov).data = g.get_game_matrix.map (povChar pov) :=
  flatten_map_qtableChar pov _ (get_game_matrix_entries g)

theorem get_qtable_entry_length (g : TikTakToe) (pov : PlayerNr) :
    (g.get_qtable_entry pov).length = 9 := by
  show (g.get_qtable_entry pov).data.length = 9
  rw [get_qtable_entry_data, List.length_map, get_game_matrix_length]

/-- Claim C7: on any board whose taken fields are in range, the two
perspective strings agree exactly when the board is empty. -/
theorem qtable_entry_eq_iff_empty (g : TikTakToe)
    (hx : ∀ a ∈ g.player_x.fields_taken, 0 ≤ a ∧ a < 9)
    (ho : ∀ a ∈ g.player_o.fields_taken, 0 ≤ a ∧ a < 9) :
    g.get_qtable_entry PlayerNr.X = g.get_qtable_entry PlayerNr.O ↔
      g.player_x.fields_taken = [] ∧ g.player_o.fields_taken = [] := by
  constructor
  · intro heq
    have hdata : g.get_game_matrix.map (povChar PlayerNr.X) =
        g.get_game_matrix.map (povChar PlayerNr.O) := by
      rw [← get_qtable_entry_data, ← get_qtable_entry_data, heq]
    by_contra hne
    rw [not_and_or] at hne
    rcases hne with hne | hne
    · obtain ⟨f, hf⟩ := List.exists_mem_of_ne_nil _ hne
      have hr := hx f hf
      have hcast := congrArg (fun l => l[f.toNat]?) hdata
      simp only [List.getElem?_map] at hcast
      rcases get_game_matrix_of_mem_x_or g f hf hr.1 hr.2 with hm | hm <;>
        rw [hm] at hcast <;> exact absurd hcast (by decide)
    · obtain ⟨f, hf⟩ := List.exists_mem_of_ne_nil _ hne
      have hr := ho f hf
      have hcast := congrArg (fun l => l[f.toNat]?) hdata
      simp only [List.getElem?_map] at hcast
      rw [get_game_matrix_of_mem_o g f hf hr.1 hr.2] at hcast
      exact absurd hcast (by decide)
  · rintro ⟨hxe, hoe⟩
    simp only [TikTakToe.get_qtable_entry, TikTakToe.get_game_matrix, hxe, hoe]
    decide

/-- Claim C7 witness: a concrete non-empty board on which the two strings
indeed differ. -/
theorem qtable_entry_eq_iff_empty_witness :
    (∀ a ∈ gAfter0.player_x.fields_taken, 0 ≤ a ∧ a < 9) ∧
    (∀ a ∈ gAfter0.player_o.fields_taken, 0 ≤ a ∧ a < 9) ∧
    (gAfter0.get_qtable_entry PlayerNr.X = gAfter0.get_qtable_entry PlayerNr.O ↔
      gAfter0.player_x.fields_taken = [] ∧ gAfter0.player_o.fields_taken = []) :=
  ⟨by decide, by decide,
    qtable_entry_eq_iff_empty gAfter0 (by decide) (by decide)⟩

/-- Claim C8: on any valid board (range-checked, disjoint), the game matrix
is the length-9 index-ordered vector with `0` for unclaimed, `1` for player
X and `-1` for player O.  (`get_game_matrix` is a pure function of the
state, as its type shows.) -/
theorem game_matrix_spec (g : TikTakToe)
    (hx : ∀ a ∈ g.player_x.fields_taken, 0 ≤ a ∧ a < 9)
    (ho : ∀ a ∈ g.player_o.fields_taken, 0 ≤ a ∧ a < 9)
    (hd : ∀ a ∈ g.player_x.fields_taken, a ∉ g.player_o.fields_taken) :
    g.get_game_matrix.length = 9 ∧
      ∀ i : Nat, i < 9 →
        g.get_game_matrix[i]? =
          some (if (i : Int) ∈ g.player_x.fields_taken then 1
            else if (i : Int) ∈ g.player_o.fields_taken then -1 else 0) := by
  refine ⟨get_game_matrix_length g, ?_⟩
  intro i hi
  have h0 : (0 : Int) ≤ (i : Int) := Int.natCast_nonneg i
  have h9 : ((i : Int)) < 9 := by exact_mod_cast hi
  have htn : ((i : Int)).toNat = i := Int.toNat_natCast i
  by_cases hmx : (i : Int) ∈ g.player_x.fields_taken
  · rw [if_pos hmx]
    have h := get_game_matrix_of_mem_x g _ hmx h0 h9 ho (hd _ hmx)
    rwa [htn] at h
  · rw [if_neg hmx]
    by_cases hmo : (i : Int) ∈ g.player_o.fields_taken
    · rw [if_pos hmo]
      have h := get_game_matrix_of_mem_o g _ hmo h0 h9
      rwa [htn] at h
    · rw [if_neg hmo]
      have h := get_game_matrix_of_not_mem g _ h0 h9 hx hmx ho hmo
      rwa [htn] at h

/-- Claim C8 witness: the matrix of the concrete terminal game. -/
theorem game_matrix_spec_witness :
    (∀ a ∈ gTerm.player_x.fields_taken, 0 ≤ a ∧ a < 9) ∧
    (∀ a ∈ gTerm.player_o.fields_taken, 0 ≤ a ∧ a < 9) ∧
    (∀ a ∈ gTerm.player_x.fields_taken, a ∉ gTerm.player_o.fields_taken) ∧
    (gTerm.get_game_matrix.length = 9 ∧
      ∀ i : Nat, i < 9 →
        gTerm.get_game_matrix[i]? =
          some (if (i : Int) ∈ gTerm.player_x.fields_taken then 1
            else if (i : Int) ∈ gTerm.player_o.fields_taken then -1 else 0)) :=
  ⟨by decide, by decide, by decide,
    game_matrix_spec gTerm (by decide) (by decide) (by decide)⟩

/-- Claim C9: for every valid board and either point of view, the
perspective string has exactly 9 characters — so the `ValueError` branch of
`get_nn_input` (which fires exactly when that length is not 9) is
unreachable — and the call returns the 9×3 one-hot rows
(`'x'` ↦ own `[1,0,0]`, `'-'` ↦ empty `[0,1,0]`, `'o'` ↦ opponent `[0,0,1]`). -/
theorem nn_input_spec (g : TikTakToe) (pov : PlayerNr)
    (hx : ∀ a ∈ g.player_x.fields_taken, 0 ≤ a ∧ a < 9)
    (ho : ∀ a ∈ g.player_o.fields_taken, 0 ≤ a ∧ a < 9) :
    (g.get_qtable_entry pov).length = 9 ∧
      g.get_nn_input pov = Except.ok ((g.get_qtable_entry pov).data.map nnMap) ∧
      ∀ c ∈ (g.get_qtable_entry pov).data,
        (c = 'x' ∧ nnMap c = [1, 0, 0]) ∨
        (c = '-' ∧ nnMap c = [0, 1, 0]) ∨
        (c = 'o' ∧ nnMap c = [0, 0, 1]) := by
  have hlen := get_qtable_entry_length g pov
  refine ⟨hlen, ?_, ?_⟩
  · simp [TikTakToe.get_nn_input, hlen]
  · intro c hc
    rw [get_qtable_entry_data] at hc
    obtain ⟨e, hem, rfl⟩ := List.mem_map.mp hc
    rcases get_game_matrix_entries g e hem with rfl | rfl | rfl <;>
      cases pov <;> decide

/-- Claim C9 witness: the tensor rows of the concrete terminal game. -/
theorem nn_input_spec_witness :
    (∀ a ∈ gTerm.player_x.fields_taken, 0 ≤ a ∧ a < 9) ∧
    (∀ a ∈ gTerm.player_o.fields_taken, 0 ≤ a ∧ a < 9) ∧
    ((gTerm.get_qtable_entry PlayerNr.X).length = 9 ∧
      gTerm.get_nn_input PlayerNr.X =
        Except.ok ((gTerm.get_qtable_entry PlayerNr.X).data.map nnMap) ∧
      ∀ c ∈ (gTerm.get_qtable_entry PlayerNr.X).data,
        (c = 'x' ∧ nnMap c = [1, 0, 0]) ∨
        (c = '-' ∧ nnMap c = [0, 1, 0]) ∨
        (c = 'o' ∧ nnMap c = [0, 0, 1])) :=
  ⟨by decide, by decide, nn_input_spec gTerm PlayerNr.X (by decide) (by decide)⟩

/-! ### Characterizing one move -/

theorem movedPlayer_player_nr (g : TikTakToe) (p : PlayerNr) (f : Int) :
    (movedPlayer g p f).player_nr = (g.actingPlayer p).player_nr := rfl

theorem movedPlayer_fields_taken (g : TikTakToe) (p : PlayerNr) (f : Int) :
    (movedPlayer g p f).fields_taken = (g.actingPlayer p).fields_taken ++ [f] :=
  rfl

/-- A call of the occupy operation succeeds exactly when the field passes the
range check, it is the acting player's turn and the field is free; the new
state is then the mutation segment `occupy_success`. -/
theorem take_field_ok_iff (g g' : TikTakToe) (p : PlayerNr) (f : Int) :
    g.take_field p f = Except.ok g' ↔
      (0 ≤ f ∧ f < 9) ∧ p = g.player_turn ∧
        ¬ (f ∈ g.player_o.fields_taken ∨ f ∈ g.player_x.fields_taken) ∧
        g' = occupy_success g p f := by
  constructor
  · intro hok
    unfold TikTakToe.take_field at hok
    split at hok
    case isFalse hr => exact Except.noConfusion hok
    case isTrue hr =>
      unfold TikTakToe.occupy_field at hok
      split at hok
      case isTrue ht => exact Except.noConfusion hok
      case isFalse ht =>
        split at hok
        case isTrue hocc => exact Except.noConfusion hok
        case isFalse hocc =>
          rw [Except.ok.injEq] at hok
          exact ⟨hr, not_not.mp ht, hocc, hok.symm⟩
  · rintro ⟨hr, ht, hocc, rfl⟩
    unfold TikTakToe.take_field TikTakToe.occupy_field
    rw [if_pos hr, if_neg (not_not_intro ht), if_neg hocc]

theorem occupy_success_actingPlayer (g : TikTakToe) (p : PlayerNr) (f : Int) :
    (occupy_success g p f).actingPlayer p = movedPlayer g p f := by
  cases p <;> (simp only [occupy_success]; repeat' split) <;> rfl

theorem occupy_success_player_turn (g : TikTakToe) (p : PlayerNr) (f : Int) :
    (occupy_success g p f).player_turn =
      (if g.player_turn = PlayerNr.X then PlayerNr.O else PlayerNr.X) := by
  cases p <;> (simp only [occupy_success]; repeat' split) <;> rfl

theorem occupy_success_player_o_of_X (g : TikTakToe) (f : Int) :
    (occupy_success g PlayerNr.X f).player_o = g.player_o := by
  simp only [occupy_success]
  repeat' split
  all_goals rfl

theorem occupy_success_player_x_of_O (g : TikTakToe) (f : Int) :
    (occupy_success g PlayerNr.O f).player_x = g.player_x := by
  simp only [occupy_success]
  repeat' split
  all_goals rfl

theorem occupy_success_is_ongoing_cases (g : TikTakToe) (p : PlayerNr) (f : Int) :
    (occupy_success g p f).is_ongoing = false ∨
      (occupy_success g p f).is_ongoing = g.is_ongoing := by
  cases p <;> (simp only [occupy_success]; repeat' split) <;>
    first
      | exact Or.inl rfl
      | exact Or.inr rfl

theorem occupy_success_result_isSome (g : TikTakToe) (p : PlayerNr) (f : Int)
    (h : g.result.isSome = true) :
    (occupy_success g p f).result.isSome = true := by
  cases p <;> (simp only [occupy_success]; repeat' split) <;>
    first
      | rfl
      | exact h

theorem step_is_ongoing_false (g : TikTakToe) (p : PlayerNr) (f : Int)
    (h : g.is_ongoing = false) : (g.step p f).is_ongoing = false := by
  cases hk : g.take_field p f with
  | error e =>
    simp only [TikTakToe.step, hk]
    exact h
  | ok g' =>
    obtain ⟨-, -, -, rfl⟩ := (take_field_ok_iff g g' p f).mp hk
    simp only [TikTakToe.step, hk]
    rcases occupy_success_is_ongoing_cases g p f with h2 | h2
    · exact h2
    · rw [h2, h]

theorem step_result_isSome (g : TikTakToe) (p : PlayerNr) (f : Int)
    (h : g.result.isSome = true) : ((g.step p f).result).isSome = true := by
  cases hk : g.take_field p f with
  | error e =>
    simp only [TikTakToe.step, hk]
    exact h
  | ok g' =>
    obtain ⟨-, -, -, rfl⟩ := (take_field_ok_iff g g' p f).mp hk
    simp only [TikTakToe.step, hk]
    exact occupy_success_result_isSome g p f h

/-- Claim C2 (amended): once a game is no longer ongoing it never returns to
ongoing under any sequence of occupy calls — `occupy_field` never sets
`is_ongoing` back to `True` and never clears `result` — but terminal states
do admit further transitions, and those can change the stored result (see
the counterexample). -/
theorem terminal_stays_terminal (g : TikTakToe) (ms : List (PlayerNr × Int))
    (h : g.is_ongoing = false) :
    (g.exec ms).is_ongoing = false ∧
      (g.result.isSome = true → ((g.exec ms).result).isSome = true) := by
  induction ms generalizing g with
  | nil => exact ⟨h, fun hr => hr⟩
  | cons m ms ih =>
    obtain ⟨p, f⟩ := m
    simp only [TikTakToe.exec]
    have h1 := step_is_ongoing_false g p f h
    have h2 := ih (g.step p f) h1
    exact ⟨h2.1, fun hr => h2.2 (step_result_isSome g p f hr)⟩

/-- Claim C2 counterexample: the reachable terminal state `gTerm` (player X
has just won with the top row) still accepts the move `O → cell 5`, and that
move rewrites the result from `x_win` to `o_win`. -/
theorem terminal_transition_counterexample :
    g0.exec [(PlayerNr.X, 0), (PlayerNr.O, 3), (PlayerNr.X, 1), (PlayerNr.O, 4),
      (PlayerNr.X, 2)] = gTerm ∧
    gTerm.is_ongoing = false ∧
    gTerm.result = some GameResult.x_win ∧
    gTerm.take_field PlayerNr.O 5 = Except.ok (gTerm.step PlayerNr.O 5) ∧
    (gTerm.step PlayerNr.O 5).result = some GameResult.o_win ∧
    some GameResult.o_win ≠ some GameResult.x_win :=
  ⟨rfl, rfl, rfl, rfl, rfl, by decide⟩

/-- Claim C2 witness: the amended theorem applied to the concrete terminal
state and the move that changes the stored result. -/
theorem terminal_stays_terminal_witness :
    gTerm.is_ongoing = false ∧
      ((gTerm.exec [(PlayerNr.O, 5)]).is_ongoing = false ∧
        (gTerm.result.isSome = true →
          ((gTerm.exec [(PlayerNr.O, 5)]).result).isSome = true)) :=
  ⟨rfl, terminal_stays_terminal gTerm [(PlayerNr.O, 5)] rfl⟩

/-- Claim C5: a successful occupy call flips the turn to the other player
(and only the turn player can move); a failed call (any error) leaves the
game state unchanged — in the source every `raise` happens before any
mutation. -/
theorem turn_alternation (g : TikTakToe) (p : PlayerNr) (f : Int) :
    (∀ g', g.take_field p f = Except.ok g' →
      p = g.player_turn ∧ g'.player_turn ≠ g.player_turn ∧
      (g.player_turn = PlayerNr.X → g'.player_turn = PlayerNr.O) ∧
      (g.player_turn = PlayerNr.O → g'.player_turn = PlayerNr.X)) ∧
    (∀ e, g.take_field p f = Except.error e → g.step p f = g) := by
  constructor
  · intro g' hok
    obtain ⟨hr, ht, hocc, rfl⟩ := (take_field_ok_iff g g' p f).mp hok
    have hturn := occupy_success_player_turn g p f
    refine ⟨ht, ?_, ?_, ?_⟩ <;> rw [hturn] <;> cases hq : g.player_turn <;>
      simp [hq]
  · intro e he
    simp only [TikTakToe.step, he]

/-- Claim C5 witness: the successful first move flips the turn from X to O;
an out-of-range attempt leaves the fresh game unchanged. -/
theorem turn_alternation_witness :
    (PlayerNr.X = g0.player_turn ∧ gAfter0.player_turn ≠ g0.player_turn ∧
      (g0.player_turn = PlayerNr.X → gAfter0.player_turn = PlayerNr.O) ∧
      (g0.player_turn = PlayerNr.O → gAfter0.player_turn = PlayerNr.X)) ∧
    g0.step PlayerNr.X 9 = g0 :=
  ⟨(turn_alternation g0 PlayerNr.X 0).1 gAfter0 rfl,
    (turn_alternation g0 PlayerNr.X 9).2 GameError.outOfRange rfl⟩

/-- Claim C3: for a cell outside `[0, 8]` the occupy operation fails with the
out-of-range error (raised by the `range(0, 9)` check before anything else),
and the state is unchanged. -/
theorem out_of_range_spec (g : TikTakToe) (p : PlayerNr) (f : Int)
    (h : ¬ (0 ≤ f ∧ f ≤ 8)) :
    g.take_field p f = Except.error GameError.outOfRange ∧ g.step p f = g := by
  have h9 : ¬ (0 ≤ f ∧ f < 9) := by omega
  have he : g.take_field p f = Except.error GameError.outOfRange := by
    unfold TikTakToe.take_field
    exact if_neg h9
  exact ⟨he, by simp only [TikTakToe.step, he]⟩

/-- Claim C3 witness: cell 9 on the fresh game. -/
theorem out_of_range_spec_witness :
    (¬ ((0 : Int) ≤ 9 ∧ (9 : Int) ≤ 8)) ∧
      (g0.take_field PlayerNr.X 9 = Except.error GameError.outOfRange ∧
        g0.step PlayerNr.X 9 = g0) :=
  ⟨by decide, out_of_range_spec g0 PlayerNr.X 9 (by decide)⟩

/-- Claim C4 counterexample: after X has taken cell 0 it is O's turn; X
attacking the occupied cell 0 fails with the wrong-turn error, not the
cell-occupied error, because `occupy_field` checks the turn first. -/
theorem occupied_wrong_turn_counterexample :
    g0.step PlayerNr.X 0 = gAfter0 ∧
    (0 : Int) ∈ gAfter0.player_x.fields_taken ∧
    gAfter0.player_turn ≠ PlayerNr.X ∧
    gAfter0.take_field PlayerNr.X 0 = Except.error GameError.wrongTurn ∧
    GameError.wrongTurn ≠ GameError.cellOccupied :=
  ⟨rfl, by decide, by decide, rfl, by decide⟩

/-- Claim C4 (amended): an occupy call on an occupied in-range cell always
fails; it fails with the cell-occupied error when the acting player is the
turn player, and with the wrong-turn error otherwise (the turn check comes
first in `occupy_field`). -/
theorem occupied_always_fails (g : TikTakToe) (p : PlayerNr) (f : Int)
    (h0 : 0 ≤ f) (h8 : f ≤ 8)
    (hocc : f ∈ g.player_o.fields_taken ∨ f ∈ g.player_x.fields_taken) :
    g.take_field p f = Except.error
      (if p = g.player_turn then GameError.cellOccupied
       else GameError.wrongTurn) := by
  unfold TikTakToe.take_field TikTakToe.occupy_field
  rw [if_pos (⟨h0, by omega⟩ : 0 ≤ f ∧ f < 9)]
  by_cases ht : p = g.player_turn
  · rw [if_neg (not_not_intro ht), if_pos hocc, if_pos ht]
  · rw [if_pos ht, if_neg ht]

/-- Claim C4 witness: the turn player O attacking the occupied cell 0 gets
the cell-occupied error. -/
theorem occupied_always_fails_witness :
    (0 : Int) ≤ 0 ∧ (0 : Int) ≤ 8 ∧
    ((0 : Int) ∈ gAfter0.player_o.fields_taken ∨
      (0 : Int) ∈ gAfter0.player_x.fields_taken) ∧
    gAfter0.take_field PlayerNr.O 0 = Except.error
      (if PlayerNr.O = gAfter0.player_turn then GameError.cellOccupied
       else GameError.wrongTurn) :=
  ⟨by decide, by decide, by decide,
    occupied_always_fails gAfter0 PlayerNr.O 0 (by decide) (by decide)
      (by decide)⟩

/-- Claim C6: after `reset` both claimed-cell lists are empty, the turn is
player X (player A) and the game is ongoing again (the spec-level Result is
`ongoing`; the raw `self.result` string is untouched by the source but is
only meaningful while `is_ongoing` is false).  `reset` is a total function:
it has no failure modes. -/
theorem reset_spec (g : TikTakToe) :
    (g.reset).player_x.fields_taken = [] ∧
    (g.reset).player_o.fields_taken = [] ∧
    (g.reset).player_turn = PlayerNr.X ∧
    (g.reset).is_ongoing = true ∧
    specResult (g.reset) = SpecResult.ongoing :=
  ⟨rfl, rfl, rfl, rfl, rfl⟩

/-- A player object that already holds a taken field. -/
def dirtyPlayer : Player :=
  { fields_taken := [3], player_nr := none }

/-- Claim C10: constructing a game fails when a passed player already has a
non-empty claimed list; with two clean players it binds the first to X, the
second to O, sets the turn to X and starts ongoing with no result set. -/
theorem init_spec (px po : Player) :
    (px.fields_taken ≠ [] ∨ po.fields_taken ≠ [] →
      TikTakToe.init px po = Except.error GameError.alreadyTakenFields) ∧
    (px.fields_taken = [] → po.fields_taken = [] →
      TikTakToe.init px po = Except.ok
        { player_x := { fields_taken := [], player_nr := some PlayerNr.X }
          player_o := { fields_taken := [], player_nr := some PlayerNr.O }
          player_turn := PlayerNr.X
          is_ongoing := true
          result := none }) := by
  constructor
  · intro h
    unfold TikTakToe.init
    refine if_pos ?_
    rcases h with h | h
    · exact Or.inl (List.length_pos.mpr h)
    · exact Or.inr (List.length_pos.mpr h)
  · intro hx ho
    unfold TikTakToe.init
    rw [if_neg (by simp [hx, ho])]
    simp [hx, ho]

/-- Claim C10 witness: a dirty first player is rejected; two fresh players
produce the initial game. -/
theorem init_spec_witness :
    (dirtyPlayer.fields_taken ≠ [] ∨ freshPlayer.fields_taken ≠ []) ∧
    TikTakToe.init dirtyPlayer freshPlayer =
      Except.error GameError.alreadyTakenFields ∧
    (freshPlayer.fields_taken = [] ∧
      TikTakToe.init freshPlayer freshPlayer = Except.ok
        { player_x := { fields_taken := [], player_nr := some PlayerNr.X }
          player_o := { fields_taken := [], player_nr := some PlayerNr.O }
          player_turn := PlayerNr.X
          is_ongoing := true
          result := none }) :=
  ⟨by decide, (init_spec dirtyPlayer freshPlayer).1 (by decide),
    rfl, (init_spec freshPlayer freshPlayer).2 rfl rfl⟩

/-! ### The reachable-state invariant and the full occupy contract -/

theorem withActing_is_ongoing (g : TikTakToe) (p : PlayerNr) (pl : Player) :
    (g.withActing p pl).is_ongoing = g.is_ongoing := by
  cases p <;> rfl

theorem withActing_result (g : TikTakToe) (p : PlayerNr) (pl : Player) :
    (g.withActing p pl).result = g.result := by
  cases p <;> rfl

theorem withActing_lengths (g : TikTakToe) (p : PlayerNr) (f : Int) :
    (g.withActing p (movedPlayer g p f)).player_x.fields_taken.length +
      (g.withActing p (movedPlayer g p f)).player_o.fields_taken.length =
      g.player_x.fields_taken.length + g.player_o.fields_taken.length + 1 := by
  cases p <;>
    simp only [TikTakToe.withActing, TikTakToe.actingPlayer, movedPlayer,
      List.length_append, List.length_singleton] <;>
    omega

theorem is_occupied_iff (g : TikTakToe) (i : Int) :
    g.is_occupied i = true ↔
      i ∈ g.player_x.fields_taken ∨ i ∈ g.player_o.fields_taken := by
  unfold TikTakToe.is_occupied
  rw [Bool.or_eq_true, decide_eq_true_eq, decide_eq_true_eq, or_comm]

theorem take_field_ok_inv (g g' : TikTakToe) (p : PlayerNr) (f : Int)
    (hinv : GameInv g) (hok : g.take_field p f = Except.ok g') : GameInv g' := by
  obtain ⟨hr, ht, hocc, rfl⟩ := (take_field_ok_iff g g' p f).mp hok
  rw [not_or] at hocc
  obtain ⟨hpx, hpo, hnx, hno, hd, hrx, hro⟩ := hinv
  cases p with
  | X =>
    have hx : (occupy_success g PlayerNr.X f).player_x = movedPlayer g PlayerNr.X f :=
      occupy_success_actingPlayer g PlayerNr.X f
    have ho2 := occupy_success_player_o_of_X g f
    refine ⟨?_, ?_, ?_, ?_, ?_, ?_, ?_⟩
    · rw [hx]
      exact hpx
    · rw [ho2]
      exact hpo
    · rw [hx, movedPlayer_fields_taken, List.nodup_append]
      exact ⟨hnx, List.nodup_singleton f,
        fun a ha hb => hocc.2 ((List.mem_singleton.mp hb) ▸ ha)⟩
    · rw [ho2]
      exact hno
    · rw [hx, movedPlayer_fields_taken, ho2]
      intro a ha
      rcases List.mem_append.mp ha with h | h
      · exact hd a h
      · rw [List.mem_singleton.mp h]
        exact hocc.1
    · rw [hx, movedPlayer_fields_taken]
      intro a ha
      rcases List.mem_append.mp ha with h | h
      · exact hrx a h
      · rw [List.mem_singleton.mp h]
        exact hr
    · rw [ho2]
      exact hro
  | O =>
    have ho2 : (occupy_success g PlayerNr.O f).player_o = movedPlayer g PlayerNr.O f :=
      occupy_success_actingPlayer g PlayerNr.O f
    have hx2 := occupy_success_player_x_of_O g f
    refine ⟨?_, ?_, ?_, ?_, ?_, ?_, ?_⟩
    · rw [hx2]
      exact hpx
    · rw [ho2]
      exact hpo
    · rw [hx2]
      exact hnx
    · rw [ho2, movedPlayer_fields_taken, List.nodup_append]
      exact ⟨hno, List.nodup_singleton f,
        fun a ha hb => hocc.1 ((List.mem_singleton.mp hb) ▸ ha)⟩
    · rw [hx2, ho2, movedPlayer_fields_taken]
      intro a ha hmem
      rcases List.mem_append.mp hmem with h | h
      · exact hd a ha h
      · rw [List.mem_singleton.mp h] at ha
        exact hocc.2 ha
    · rw [hx2]
      exact hrx
    · rw [ho2, movedPlayer_fields_taken]
      intro a ha
      rcases List.mem_append.mp ha with h | h
      · exact hro a h
      · rw [List.mem_singleton.mp h]
        exact hr

theorem step_inv (g : TikTakToe) (p : PlayerNr) (f : Int)
    (hinv : GameInv g) : GameInv (g.step p f) := by
  cases hk : g.take_field p f with
  | error e =>
    simpa only [TikTakToe.step, hk] using hinv
  | ok g' =>
    simp only [TikTakToe.step, hk]
    exact take_field_ok_inv g g' p f hinv hk

theorem init_inv (px po : Player) (g : TikTakToe)
    (h : TikTakToe.init px po = Except.ok g) : GameInv g := by
  unfold TikTakToe.init at h
  split at h
  · exact Except.noConfusion h
  · rename_i hcond
    rw [Except.ok.injEq] at h
    subst h
    rw [not_or] at hcond
    have hx : px.fields_taken = [] := by
      have h1 := hcond.1
      rw [← List.length_eq_zero]
      omega
    have ho : po.fields_taken = [] := by
      have h2 := hcond.2
      rw [← List.length_eq_zero]
      omega
    refine ⟨rfl, rfl, ?_, ?_, ?_, ?_, ?_⟩ <;> simp [hx, ho]

theorem reset_inv (g : TikTakToe) (h : GameInv g) : GameInv (g.reset) := by
  obtain ⟨h1, h2, -, -, -, -, -⟩ := h
  refine ⟨h1, h2, List.nodup_nil, List.nodup_nil, ?_, ?_, ?_⟩ <;>
    exact fun a ha => absurd ha (List.not_mem_nil a)

theorem occupy_success_win (g : TikTakToe) (p : PlayerNr) (f : Int)
    (hw : check_for_win (movedPlayer g p f) = true) :
    (occupy_success g p f).is_ongoing = false ∧
      (occupy_success g p f).result =
        some (match (g.actingPlayer p).player_nr with
          | some PlayerNr.X => GameResult.x_win
          | some PlayerNr.O => GameResult.o_win
          | _ => GameResult.error) := by
  simp only [occupy_success, movedPlayer_player_nr, hw, if_true]
  rcases hpn : (g.actingPlayer p).player_nr with _ | q
  · simp
  · cases q <;> simp

theorem occupy_success_no_win (g : TikTakToe) (p : PlayerNr) (f : Int)
    (hw : check_for_win (movedPlayer g p f) = false) :
    (9 ≤ g.player_x.fields_taken.length + g.player_o.fields_taken.length + 1 →
      (occupy_success g p f).is_ongoing = false ∧
      (occupy_success g p f).result = some GameResult.draw) ∧
    (g.player_x.fields_taken.length + g.player_o.fields_taken.length + 1 < 9 →
      (occupy_success g p f).is_ongoing = g.is_ongoing ∧
      (occupy_success g p f).result = g.result) := by
  simp only [occupy_success, hw, Bool.false_eq_true, if_false,
    TikTakToe.check_for_draw, withActing_lengths, decide_eq_true_eq]
  split
  · rename_i hcond
    exact ⟨fun _ => ⟨rfl, rfl⟩, fun hlt => absurd hcond (by omega)⟩
  · rename_i hcond
    exact ⟨fun h9 => absurd h9 hcond,
      fun _ => ⟨withActing_is_ongoing g p _, withActing_result g p _⟩⟩

theorem occupy_success_lengths (g : TikTakToe) (p : PlayerNr) (f : Int) :
    (occupy_success g p f).player_x.fields_taken.length +
      (occupy_success g p f).player_o.fields_taken.length =
      g.player_x.fields_taken.length + g.player_o.fields_taken.length + 1 := by
  cases p with
  | X =>
    rw [show (occupy_success g PlayerNr.X f).player_x = movedPlayer g PlayerNr.X f
        from occupy_success_actingPlayer g PlayerNr.X f,
      occupy_success_player_o_of_X g f, movedPlayer_fields_taken]
    simp only [TikTakToe.actingPlayer, List.length_append, List.length_singleton]
    omega
  | O =>
    rw [show (occupy_success g PlayerNr.O f).player_o = movedPlayer g PlayerNr.O f
        from occupy_success_actingPlayer g PlayerNr.O f,
      occupy_success_player_x_of_O g f, movedPlayer_fields_taken]
    simp only [TikTakToe.actingPlayer, List.length_append, List.length_singleton]
    omega

/-- Claim C1: for every reachable ongoing game state (the invariant
`GameInv` is established by `__init__` and preserved by every operation),
a successful occupy call appends the cell to the acting player's claimed
list and flips the turn to the other player, and then termination is
evaluated in this order: if the acting player's claimed list now contains a
win line, the result becomes that player's win (even on a full board — win
is checked before draw); otherwise, if all 9 cells are occupied, the result
becomes draw; otherwise the game remains ongoing with the result
unchanged. -/
theorem occupy_move_spec (g g' : TikTakToe) (p : PlayerNr) (f : Int)
    (hinv : GameInv g) (hong : g.is_ongoing = true)
    (hok : g.take_field p f = Except.ok g') :
    (g'.actingPlayer p).fields_taken = (g.actingPlayer p).fields_taken ++ [f] ∧
    (p = PlayerNr.X → g'.player_turn = PlayerNr.O) ∧
    (p = PlayerNr.O → g'.player_turn = PlayerNr.X) ∧
    (check_for_win (g'.actingPlayer p) = true →
      g'.is_ongoing = false ∧ g'.result = some p.winResult) ∧
    (check_for_win (g'.actingPlayer p) = false →
      (∀ i : Int, 0 ≤ i → i < 9 → g'.is_occupied i = true) →
      g'.is_ongoing = false ∧ g'.result = some GameResult.draw) ∧
    (check_for_win (g'.actingPlayer p) = false →
      ¬ (∀ i : Int, 0 ≤ i → i < 9 → g'.is_occupied i = true) →
      g'.is_ongoing = true ∧ g'.result = g.result) := by
  have hinv' := take_field_ok_inv g g' p f hinv hok
  obtain ⟨hr, ht, hocc, hg⟩ := (take_field_ok_iff g g' p f).mp hok
  subst hg
  have hAct := occupy_success_actingPlayer g p f
  refine ⟨?_, ?_, ?_, ?_, ?_, ?_⟩
  · rw [hAct, movedPlayer_fields_taken]
  · intro hpe
    rw [occupy_success_player_turn, ← ht, hpe]
    decide
  · intro hpe
    rw [occupy_success_player_turn, ← ht, hpe]
    decide
  · intro hw
    rw [hAct] at hw
    have h := occupy_success_win g p f hw
    refine ⟨h.1, ?_⟩
    rw [h.2]
    cases p with
    | X =>
      rw [show (g.actingPlayer PlayerNr.X).player_nr = some PlayerNr.X from hinv.1]
      rfl
    | O =>
      rw [show (g.actingPlayer PlayerNr.O).player_nr = some PlayerNr.O from
        hinv.2.1]
      rfl
  · intro hw hall
    rw [hAct] at hw
    have hsum := nine_le_of_all (occupy_success g p f).player_x.fields_taken
      (occupy_success g p f).player_o.fields_taken
      (fun i h0 hlt => (is_occupied_iff _ i).mp (hall i h0 hlt))
    rw [occupy_success_lengths] at hsum
    exact (occupy_success_no_win g p f hw).1 hsum
  · intro hw hnall
    rw [hAct] at hw
    by_cases htot :
      9 ≤ g.player_x.fields_taken.length + g.player_o.fields_taken.length + 1
    · exfalso
      apply hnall
      intro i h0 hlt
      obtain ⟨hpx', hpo', hnx', hno', hd', hrx', hro'⟩ := hinv'
      have hmem := mem_of_nine_le _ _ hnx' hno' hd' hrx' hro'
        (by rw [occupy_success_lengths]; exact htot) i h0 hlt
      exact (is_occupied_iff _ i).mpr hmem
    · have h := (occupy_success_no_win g p f hw).2 (by omega)
      rw [h.1, hong]
      exact ⟨rfl, h.2⟩

/-- Claim C1 witness: the first move of the fresh game (no win, no draw,
game stays ongoing). -/
theorem occupy_move_spec_witness :
    GameInv g0 ∧ g0.is_ongoing = true ∧
    ((gAfter0.actingPlayer PlayerNr.X).fields_taken =
        (g0.actingPlayer PlayerNr.X).fields_taken ++ [0] ∧
      (PlayerNr.X = PlayerNr.X → gAfter0.player_turn = PlayerNr.O) ∧
      (PlayerNr.X = PlayerNr.O → gAfter0.player_turn = PlayerNr.X) ∧
      (check_for_win (gAfter0.actingPlayer PlayerNr.X) = true →
        gAfter0.is_ongoing = false ∧
          gAfter0.result = some (PlayerNr.winResult PlayerNr.X)) ∧
      (check_for_win (gAfter0.actingPlayer PlayerNr.X) = false →
        (∀ i : Int, 0 ≤ i → i < 9 → gAfter0.is_occupied i = true) →
        gAfter0.is_ongoing = false ∧ gAfter0.result = some GameResult.draw) ∧
      (check_for_win (gAfter0.actingPlayer PlayerNr.X) = false →
        ¬ (∀ i : Int, 0 ≤ i → i < 9 → gAfter0.is_occupied i = true) →
        gAfter0.is_ongoing = true ∧ gAfter0.result = g0.result)) :=
  ⟨by decide, rfl, occupy_move_spec g0 gAfter0 PlayerNr.X 0 (by decide) rfl rfl⟩
